import Mathlib

/-!
Verification of the express-openapi-validator core against its code.

The development shallowly embeds three pieces of the source:
the HTTP error class hierarchy of framework types, the option
validation and normalization done by the OpenApiValidator
constructor, and the middleware chain built by installMiddleware
together with the per-request state it threads.

JS optional or possibly-undefined values are embedded as Option,
numbers as Int, and the JS falsy test on numbers and strings is made
explicit where the source relies on it.
-/

namespace EOV

/-- Identity of the concrete error class that built the object, mirroring
the JS prototype identity of the constructed error. -/
inductive ErrClass
  | base
  | badRequest
  | unauthorized
  | forbidden
  | notFound
  | methodNotAllowed
  | notAcceptable
  | requestEntityTooLarge
  | unsupportedMediaType
  | internalServerError
deriving DecidableEq, Repr

/-- ValidationErrorItem of framework types: a path, a message and an
optional error code. The path and message are optional because at runtime
the base constructor may receive undefined in either position. -/
structure ValidationErrorItem where
  path : Option String
  message : Option String
  errorCode : Option String := none
deriving DecidableEq, Repr

/-- ErrorHeaders of framework types: an optional Allow header value. -/
structure ErrorHeaders where
  Allow : Option String := none
deriving DecidableEq, Repr

/-- Argument object of the HttpError base-class constructor. -/
structure HttpErrorArgs where
  status : Int
  path : Option String := none
  name : String
  message : Option String := none
  headers : Option ErrorHeaders := none
  errors : Option (List ValidationErrorItem) := none
deriving DecidableEq, Repr

/-- The constructed HttpError object. The klass field records which
subclass constructor produced it. -/
structure HttpError where
  klass : ErrClass
  status : Int
  path : Option String
  name : String
  message : Option String
  headers : Option ErrorHeaders
  errors : List ValidationErrorItem
deriving DecidableEq, Repr

/-- The HttpError base-class constructor body: it copies the argument
fields and, when the errors argument is nullish, falls back to the
singleton list built from the path and message arguments. This is the
nullish-coalescing expression of the source; an explicitly supplied
list, even an empty one, is kept as given. -/
def HttpError.new (klass : ErrClass) (err : HttpErrorArgs) : HttpError :=
  { klass := klass
    status := err.status
    path := err.path
    name := err.name
    message := err.message
    headers := err.headers
    errors := err.errors.getD [{ path := err.path, message := err.message }] }

/-- JS logical-or on an optional number: the fallback is taken when the
value is nullish or zero, since zero is falsy. -/
def orStatus (a : Option Int) (b : Int) : Int :=
  match a with
  | none => b
  | some n => if n = 0 then b else n

/-- Argument object accepted by the error subclasses. A given subclass
reads only some of the fields; the others are ignored, as in JS where an
argument object may carry extra properties. -/
structure SubErrArgs where
  path : Option String := none
  message : Option String := none
  headers : Option ErrorHeaders := none
  overrideStatus : Option Int := none
  errors : Option (List ValidationErrorItem) := none
deriving DecidableEq, Repr

/-- The NotFound subclass constructor. -/
def NotFound.new (err : SubErrArgs) : HttpError :=
  HttpError.new .notFound
    { status := orStatus err.overrideStatus 404
      path := err.path
      message := err.message
      name := "Not Found" }

/-- The NotAcceptable subclass constructor. -/
def NotAcceptable.new (err : SubErrArgs) : HttpError :=
  HttpError.new .notAcceptable
    { status := orStatus err.overrideStatus 406
      path := err.path
      name := "Not Acceptable"
      message := err.message }

/-- The MethodNotAllowed subclass constructor; it forwards the headers
argument to the base constructor. -/
def MethodNotAllowed.new (err : SubErrArgs) : HttpError :=
  HttpError.new .methodNotAllowed
    { status := orStatus err.overrideStatus 405
      path := err.path
      name := "Method Not Allowed"
      message := err.message
      headers := err.headers }

/-- The BadRequest subclass constructor; it forwards the errors list. -/
def BadRequest.new (err : SubErrArgs) : HttpError :=
  HttpError.new .badRequest
    { status := orStatus err.overrideStatus 400
      path := err.path
      name := "Bad Request"
      message := err.message
      errors := err.errors }

/-- The RequestEntityTooLarge subclass constructor. -/
def RequestEntityTooLarge.new (err : SubErrArgs) : HttpError :=
  HttpError.new .requestEntityTooLarge
    { status := orStatus err.overrideStatus 413
      path := err.path
      name := "Request Entity Too Large"
      message := err.message }

/-- The InternalServerError subclass constructor; it forwards the errors
list. -/
def InternalServerError.new (err : SubErrArgs) : HttpError :=
  HttpError.new .internalServerError
    { status := orStatus err.overrideStatus 500
      path := err.path
      name := "Internal Server Error"
      message := err.message
      errors := err.errors }

/-- The UnsupportedMediaType subclass constructor. -/
def UnsupportedMediaType.new (err : SubErrArgs) : HttpError :=
  HttpError.new .unsupportedMediaType
    { status := orStatus err.overrideStatus 415
      path := err.path
      name := "Unsupported Media Type"
      message := err.message }

/-- The Unauthorized subclass constructor. -/
def Unauthorized.new (err : SubErrArgs) : HttpError :=
  HttpError.new .unauthorized
    { status := orStatus err.overrideStatus 401
      path := err.path
      name := "Unauthorized"
      message := err.message }

/-- The Forbidden subclass constructor. -/
def Forbidden.new (err : SubErrArgs) : HttpError :=
  HttpError.new .forbidden
    { status := orStatus err.overrideStatus 403
      path := err.path
      name := "Forbidden"
      message := err.message }

/-- Argument object of the static factory HttpError.create. It carries no
overrideStatus and no headers property, so the subclass constructors see
those as undefined. -/
structure CreateArgs where
  status : Int
  path : Option String := none
  message : Option String := none
  errors : Option (List ValidationErrorItem) := none
deriving DecidableEq, Repr

/-- View of the create argument as a subclass argument: the properties
create never sets are undefined. -/
def CreateArgs.toSub (err : CreateArgs) : SubErrArgs :=
  { path := err.path, message := err.message, errors := err.errors }

/-- The static factory HttpError.create: a switch on the status that picks
the subclass constructor, defaulting to InternalServerError. -/
def HttpError.create (err : CreateArgs) : HttpError :=
  if err.status = 400 then BadRequest.new err.toSub
  else if err.status = 401 then Unauthorized.new err.toSub
  else if err.status = 403 then Forbidden.new err.toSub
  else if err.status = 404 then NotFound.new err.toSub
  else if err.status = 405 then MethodNotAllowed.new err.toSub
  else if err.status = 406 then NotAcceptable.new err.toSub
  else if err.status = 413 then RequestEntityTooLarge.new err.toSub
  else if err.status = 415 then UnsupportedMediaType.new err.toSub
  else InternalServerError.new err.toSub

/-- The class the factory is specified to produce for each well-known
status code; every other status maps to the internal-server-error class. -/
def expectedClass (status : Int) : ErrClass :=
  if status = 400 then .badRequest
  else if status = 401 then .unauthorized
  else if status = 403 then .forbidden
  else if status = 404 then .notFound
  else if status = 405 then .methodNotAllowed
  else if status = 406 then .notAcceptable
  else if status = 413 then .requestEntityTooLarge
  else if status = 415 then .unsupportedMediaType
  else .internalServerError

/-- One segment of a path template: a literal segment or a named
path-parameter placeholder. -/
inductive Seg
  | lit (s : String)
  | param (name : String)
deriving DecidableEq, Repr

/-- Modelled from the spec: a RouteEntry derived from one pair of path
template and method, carrying the regex-matchable form of the template.
The route index itself lives outside the provided sources; only the
MethodNotAllowed class it builds errors with is in them. -/
structure RouteEntry where
  method : String
  template : List Seg
deriving DecidableEq, Repr

/-- Modelled from the spec: whether a template matches a concrete path,
segment by segment; a parameter placeholder captures exactly one
segment. -/
def segMatches : List Seg → List String → Bool
  | [], [] => true
  | .lit s :: ts, p :: ps => s == p && segMatches ts ps
  | .param _ :: ts, _ :: ps => segMatches ts ps
  | _, _ => false

/-- Modelled from the spec: the methods of the entries whose template
matches the path, in declaration order; this is the Allow set of a 405
response. -/
def allowedMethods (idx : List RouteEntry) (path : List String) : List String :=
  (idx.filter (fun e => segMatches e.template path)).map (fun e => e.method)

/-- Outcome of route resolution. -/
inductive ResolveResult
  | found (e : RouteEntry)
  | methodMismatch (err : HttpError)
  | notFound
deriving DecidableEq, Repr

/-- Modelled from the spec: Resolve walks the entries in declaration
order and the first entry whose template matches the path and whose
method matches wins; when the path matches some entry only under a
different method, resolution reports a method mismatch through the
MethodNotAllowed class of the sources, with an Allow header listing the
methods that do match the path. -/
def resolve (idx : List RouteEntry) (method : String) (path : List String) :
    ResolveResult :=
  match idx.find? (fun e => segMatches e.template path && e.method == method) with
  | some e => .found e
  | none =>
    let allow := allowedMethods idx path
    if allow.isEmpty then .notFound
    else .methodMismatch (MethodNotAllowed.new
      { path := some (String.intercalate "/" path)
        headers := some { Allow := some (String.intercalate ", " allow) } })

/-! ## Claims about the error hierarchy and route resolution -/

/-- C1: for an input whose status is one of the well-known codes 400,
401, 403, 404, 405, 406, 413, 415, the factory HttpError.create returns
an object of the corresponding class whose status field equals the input
status, and for 500 an InternalServerError with status 500. -/
theorem create_known_status_gives_matching_class (err : CreateArgs)
    (h : err.status ∈ ([400, 401, 403, 404, 405, 406, 413, 415, 500] : List Int)) :
    (HttpError.create err).klass = expectedClass err.status ∧
    (HttpError.create err).status = err.status := by
  obtain ⟨s, p, m, es⟩ := err
  simp only [List.mem_cons, List.not_mem_nil, or_false] at h
  rcases h with h | h | h | h | h | h | h | h | h <;>
    subst h <;>
    exact ⟨rfl, rfl⟩

/-- Witness for C1 at a concrete input with status 400. -/
theorem create_known_status_gives_matching_class_witness :
    (400 : Int) ∈ ([400, 401, 403, 404, 405, 406, 413, 415, 500] : List Int) ∧
    ((HttpError.create { status := 400, path := some "/pets" }).klass
        = expectedClass 400 ∧
      (HttpError.create { status := 400, path := some "/pets" }).status = 400) :=
  ⟨by decide,
    create_known_status_gives_matching_class
      { status := 400, path := some "/pets" } (by decide)⟩

/-- C9: for an input whose status is none of the eight mapped codes, the
factory returns an InternalServerError whose status is 500, discarding
the input status. -/
theorem create_unknown_status_gives_500 (err : CreateArgs)
    (h : err.status ∉ ([400, 401, 403, 404, 405, 406, 413, 415] : List Int)) :
    (HttpError.create err).klass = .internalServerError ∧
    (HttpError.create err).status = 500 := by
  obtain ⟨s, p, m, es⟩ := err
  simp only [List.mem_cons, List.not_mem_nil, or_false, not_or] at h
  obtain ⟨h400, h401, h403, h404, h405, h406, h413, h415⟩ := h
  simp [HttpError.create, h400, h401, h403, h404, h405, h406, h413, h415,
    InternalServerError.new, HttpError.new, orStatus, CreateArgs.toSub]

/-- Witness for C9 at the concrete status 402. -/
theorem create_unknown_status_gives_500_witness :
    (402 : Int) ∉ ([400, 401, 403, 404, 405, 406, 413, 415] : List Int) ∧
    ((HttpError.create { status := 402, path := some "/pay" }).klass
        = .internalServerError ∧
      (HttpError.create { status := 402, path := some "/pay" }).status = 500) :=
  ⟨by decide,
    create_unknown_status_gives_500
      { status := 402, path := some "/pay" } (by decide)⟩

/-- C3 counterexample: an error built through the factory with an
explicitly supplied empty errors list carries an empty errors list, so
not every constructed HttpError carries a non-empty list. -/
theorem constructed_error_empty_errors_counterexample :
    (HttpError.create
      { status := 400, path := some "/pets", errors := some [] }).errors = [] :=
  rfl

/-- C3 amended: when the constructor argument supplies no errors list,
the errors field is the singleton built from the path and message of the
argument; in general the field is exactly the supplied list, so it is
non-empty whenever the supplied list is absent or non-empty, but an
explicitly supplied empty list is kept empty. -/
theorem constructed_error_errors_field (k : ErrClass) (args : HttpErrorArgs)
    (h : args.errors ≠ some []) :
    (HttpError.new k args).errors ≠ [] ∧
    (args.errors = none →
      (HttpError.new k args).errors
        = [{ path := args.path, message := args.message }]) := by
  obtain ⟨s, p, n, m, hd, es⟩ := args
  cases es with
  | none => simp [HttpError.new]
  | some l =>
    cases l with
    | nil => simp at h
    | cons a t => simp [HttpError.new]

/-- Witness for the amended C3 at a concrete argument with no errors
list. -/
theorem constructed_error_errors_field_witness :
    ({ status := 404, path := some "/x", name := "Not Found" } :
        HttpErrorArgs).errors ≠ some [] ∧
    ((HttpError.new .notFound
        { status := 404, path := some "/x", name := "Not Found" }).errors ≠ [] ∧
      (({ status := 404, path := some "/x", name := "Not Found" } :
          HttpErrorArgs).errors = none →
        (HttpError.new .notFound
          { status := 404, path := some "/x", name := "Not Found" }).errors
            = [{ path := some "/x", message := none }])) :=
  ⟨by decide,
    constructed_error_errors_field .notFound
      { status := 404, path := some "/x", name := "Not Found" } (by decide)⟩

/-- C8: when the path matches some entry only under a different method,
resolution produces a method-mismatch error of class MethodNotAllowed
whose status is 405 and whose Allow header lists exactly the methods
that match the path; moreover the MethodNotAllowed constructor, given no
overrideStatus, yields status 405 and preserves the headers it is
given. -/
theorem method_mismatch_gives_405_with_allow
    (idx : List RouteEntry) (method : String) (path : List String)
    (hno : idx.find? (fun e => segMatches e.template path && e.method == method)
      = none)
    (hsome : allowedMethods idx path ≠ []) :
    (∃ err, resolve idx method path = .methodMismatch err ∧
      err.klass = .methodNotAllowed ∧ err.status = 405 ∧
      err.headers = some
        { Allow := some (String.intercalate ", " (allowedMethods idx path)) }) ∧
    (∀ args : SubErrArgs, args.overrideStatus = none →
      (MethodNotAllowed.new args).status = 405 ∧
      (MethodNotAllowed.new args).headers = args.headers) := by
  constructor
  · have hise : (allowedMethods idx path).isEmpty = false := by
      cases hA : allowedMethods idx path with
      | nil => exact absurd hA hsome
      | cons a t => rfl
    refine ⟨MethodNotAllowed.new
      { path := some (String.intercalate "/" path)
        headers := some
          { Allow := some (String.intercalate ", " (allowedMethods idx path)) } },
      ?_, rfl, rfl, rfl⟩
    unfold resolve
    rw [hno]
    simp only [hise, Bool.false_eq_true, if_false]
  · intro args hov
    obtain ⟨p, m, hd, ov, es⟩ := args
    cases hov
    exact ⟨rfl, rfl⟩

/-- Witness for C8 on a two-entry index where the path matches under get
and delete but the request method is post. -/
theorem method_mismatch_gives_405_with_allow_witness :
    (([⟨"get", [.lit "v1", .lit "pets"]⟩, ⟨"delete", [.lit "v1", .lit "pets"]⟩] :
        List RouteEntry).find?
      (fun e => segMatches e.template ["v1", "pets"] && e.method == "post")
        = none ∧
      allowedMethods
        [⟨"get", [.lit "v1", .lit "pets"]⟩, ⟨"delete", [.lit "v1", .lit "pets"]⟩]
        ["v1", "pets"] ≠ []) ∧
    ((∃ err, resolve
        [⟨"get", [.lit "v1", .lit "pets"]⟩, ⟨"delete", [.lit "v1", .lit "pets"]⟩]
        "post" ["v1", "pets"] = .methodMismatch err ∧
      err.klass = .methodNotAllowed ∧ err.status = 405 ∧
      err.headers = some
        { Allow := some (String.intercalate ", " (allowedMethods
            [⟨"get", [.lit "v1", .lit "pets"]⟩,
              ⟨"delete", [.lit "v1", .lit "pets"]⟩] ["v1", "pets"])) }) ∧
    (∀ args : SubErrArgs, args.overrideStatus = none →
      (MethodNotAllowed.new args).status = 405 ∧
      (MethodNotAllowed.new args).headers = args.headers)) :=
  ⟨⟨by decide, by decide⟩,
    method_mismatch_gives_405_with_allow
      [⟨"get", [.lit "v1", .lit "pets"]⟩, ⟨"delete", [.lit "v1", .lit "pets"]⟩]
      "post" ["v1", "pets"] (by decide) (by decide)⟩

/-! ## Options model: the OpenApiValidator constructor -/

/-- Opaque function or foreign object value: the engine stores these and
tests them for presence but never applies them in the code paths under
verification; the id field keeps distinct values distinguishable. -/
structure OpaqueFn where
  id : Nat := 0
deriving DecidableEq, Repr

/-- The apiSpec option: an in-memory document object or a file path
string. The document contents are irrelevant to the claims settled
here. -/
inductive ApiSpec
  | doc
  | str (s : String)
deriving DecidableEq, Repr

/-- JS truthiness of the apiSpec option: undefined and null are embedded
as none and are falsy, an empty string is falsy, and any document object
or non-empty string is truthy. -/
def apiSpecTruthy : Option ApiSpec → Bool
  | none => false
  | some .doc => true
  | some (.str s) => !(s == "")

/-- The removeAdditional option values: a boolean or the strings all and
failing. -/
inductive RemoveAdditionalOpt
  | bool (b : Bool)
  | all
  | failing
deriving DecidableEq, Repr

/-- The coerceTypes option values: a boolean or the string array. -/
inductive CoerceTypesOpt
  | bool (b : Bool)
  | array
deriving DecidableEq, Repr

/-- ValidateResponseOpts of framework types; the onError callback is an
opaque function value, none standing for null or undefined. -/
structure ValidateResponseOpts where
  allErrors : Option Bool := none
  removeAdditional : Option RemoveAdditionalOpt := none
  coerceTypes : Option CoerceTypesOpt := none
  onError : Option OpaqueFn := none
deriving DecidableEq, Repr

/-- ValidateRequestOpts of framework types. -/
structure ValidateRequestOpts where
  allErrors : Option Bool := none
  allowUnknownQueryParameters : Option Bool := none
  coerceTypes : Option CoerceTypesOpt := none
  removeAdditional : Option RemoveAdditionalOpt := none
deriving DecidableEq, Repr

/-- ValidateSecurityOpts of framework types: an optional table from
scheme name to handler; the handlers are opaque since no claim settled
here invokes one. -/
structure ValidateSecurityOpts where
  handlers : Option (List (String × OpaqueFn)) := none
deriving DecidableEq, Repr

/-- The validateResponses option before normalization: a boolean or an
options object. -/
inductive ValidateResponsesInput
  | bool (b : Bool)
  | opts (o : ValidateResponseOpts)
deriving DecidableEq, Repr

/-- The validateRequests option before normalization. -/
inductive ValidateRequestsInput
  | bool (b : Bool)
  | opts (o : ValidateRequestOpts)
deriving DecidableEq, Repr

/-- The validateSecurity option before normalization. -/
inductive ValidateSecurityInput
  | bool (b : Bool)
  | opts (o : ValidateSecurityOpts)
deriving DecidableEq, Repr

/-- A SerDes entry: a format name with optional serialize and
deserialize transforms; the transforms are opaque tokens because no
claim settled here applies one. -/
structure SerDes where
  format : String
  serialize : Option OpaqueFn := none
  deserialize : Option OpaqueFn := none
deriving DecidableEq, Repr

/-- Modelled from the spec: the built-in SerDes table exported by the
framework base serdes module, which is not among the provided sources;
the spec states that built-in entries exist for at least the date and
the date-time formats, each an ISO-8601 string transform. -/
def defaultSerDes : List SerDes :=
  [ { format := "date", serialize := some { id := 1 }, deserialize := some { id := 2 } },
    { format := "date-time", serialize := some { id := 3 }, deserialize := some { id := 4 } } ]

/-- A Format entry of the deprecated array form of the formats option. -/
structure Format where
  name : String
  type : Option String := none
  validate : OpaqueFn := {}
deriving DecidableEq, Repr

/-- A value of the record form of the formats option: a typed validator
object, a bare validate function, or a boolean. -/
inductive AjvFormatValue
  | typedValidator (type : String) (validate : OpaqueFn)
  | validator (validate : OpaqueFn)
  | boolean (b : Bool)
deriving DecidableEq, Repr

/-- The formats option: the deprecated array form or the record form. -/
inductive FormatsInput
  | arr (l : List Format)
  | record (l : List (String × AjvFormatValue))
deriving DecidableEq, Repr

/-- The deprecated unknownFormats option: true, a list of format names,
the string ignore, or at runtime any other boolean or string. -/
inductive UnknownFormatsInput
  | bool (b : Bool)
  | str (s : String)
  | list (l : List String)
deriving DecidableEq, Repr

/-- The validateFormats option: a boolean, or the deprecated strings
fast and full. -/
inductive ValidateFormatsInput
  | bool (b : Bool)
  | str (s : String)
deriving DecidableEq, Repr

/-- The ajvFormats plugin options: a mode chosen by the constructor, or
an arbitrary user-supplied object. -/
inductive AjvFormatsOpts
  | mode (s : String)
  | given (v : OpaqueFn)
deriving DecidableEq, Repr

/-- The fileUploader option: a boolean or a multer options object. -/
inductive FileUploaderInput
  | bool (b : Bool)
  | opts (o : OpaqueFn)
deriving DecidableEq, Repr

/-- The refParser option object. -/
structure RefParserOpts where
  mode : String
deriving DecidableEq, Repr

/-- OperationHandlerOptions of framework types; the resolver is an
opaque function value. -/
structure OperationHandlerOptions where
  basePath : String
  resolver : OpaqueFn := {}
deriving DecidableEq, Repr

/-- The operationHandlers option: false, a base path string, or an
options object. -/
inductive OperationHandlersInput
  | bool (b : Bool)
  | str (s : String)
  | obj (o : OperationHandlerOptions)
deriving DecidableEq, Repr

/-- The default operation-handler resolver imported by the validator;
its body lives outside the provided sources and is opaque here. -/
def defaultResolver : OpaqueFn := { id := 100 }

/-- The options object passed to the OpenApiValidator constructor; the
source mutates it in place and finally casts it to the normalized type,
so the same structure serves before and after normalization. Fields
embedded as none stand for undefined or null. -/
structure OpenApiValidatorOpts where
  apiSpec : Option ApiSpec := none
  validateApiSpec : Option Bool := none
  validateResponses : Option ValidateResponsesInput := none
  validateRequests : Option ValidateRequestsInput := none
  validateSecurity : Option ValidateSecurityInput := none
  ignorePaths : Option OpaqueFn := none
  ignoreUndocumented : Option Bool := none
  securityHandlers : Option (List (String × OpaqueFn)) := none
  coerceTypes : Option CoerceTypesOpt := none
  useRequestUrl : Option Bool := none
  unknownFormats : Option UnknownFormatsInput := none
  serDes : Option (List SerDes) := none
  formats : Option FormatsInput := none
  ajvFormats : Option AjvFormatsOpts := none
  fileUploader : Option FileUploaderInput := none
  multerOpts : Option OpaqueFn := none
  refParser : Option RefParserOpts := none
  operationHandlers : Option OperationHandlersInput := none
  validateFormats : Option ValidateFormatsInput := none
deriving DecidableEq, Repr

/-- First phase of the constructor: the nullish-guarded default
assignments, the operationHandlers conversion, and the conversions of
the three validate options from the literal boolean true into their
object forms. A null operationHandlers is conflated with undefined
here; in the source null slips past the typeof-object test but stays
falsy, which is observationally the same as the assigned false. -/
def applyConstructorDefaults (options : OpenApiValidatorOpts) :
    OpenApiValidatorOpts :=
  let options := { options with
    validateApiSpec := some (options.validateApiSpec.getD true)
    validateRequests := some (options.validateRequests.getD (.bool true))
    validateResponses := some (options.validateResponses.getD (.bool false))
    validateSecurity := some (options.validateSecurity.getD (.bool true))
    fileUploader := some (options.fileUploader.getD (.opts {}))
    refParser := some (options.refParser.getD { mode := "bundle" })
    validateFormats := some (options.validateFormats.getD (.bool true))
    formats := some (options.formats.getD (.record []))
    useRequestUrl := some (options.useRequestUrl.getD false) }
  let options := { options with
    operationHandlers :=
      match options.operationHandlers with
      | some (.str s) => some (.obj { basePath := s, resolver := defaultResolver })
      | some (.obj h) => some (.obj h)
      | _ => some (.bool false) }
  let options := { options with
    validateResponses :=
      match options.validateResponses with
      | some (.bool true) => some (.opts
          { removeAdditional := some (.bool false)
            coerceTypes := some (.bool false)
            onError := none })
      | v => v }
  let options := { options with
    validateRequests :=
      match options.validateRequests with
      | some (.bool true) => some (.opts
          { allowUnknownQueryParameters := some false
            coerceTypes := some (.bool false) })
      | v => v }
  { options with
    validateSecurity :=
      match options.validateSecurity with
      | some (.bool true) => some (.opts {})
      | v => v }

/-- The validateOptions method: it throws on a falsy apiSpec, on the
unsupported legacy securityHandlers and multerOpts options, and on an
ill-formed unknownFormats value, in that order; the console warnings of
the source have no effect on the result. -/
def validateOptions (options : OpenApiValidatorOpts) : Except String Unit :=
  if !(apiSpecTruthy options.apiSpec) then .error "apiSpec required."
  else if options.securityHandlers.isSome then
    .error "securityHandlers is not supported. Use validateSecurities.handlers instead."
  else if options.multerOpts.isSome then
    .error "multerOpts is not supported. Use fileUploader instead."
  else
    match options.unknownFormats with
    | some (.bool b) =>
      if b then .ok ()
      else .error "unknownFormats must contain an array of unknownFormats, ignore or true"
    | some (.str s) =>
      if s == "ignore" then .ok ()
      else .error "unknownFormats must contain an array of unknownFormats, ignore or true"
    | _ => .ok ()

/-- Conversion of one deprecated Format entry to its record value: a
truthy type string yields a typed validator object, otherwise the bare
validate function is stored. -/
def formatValue (f : Format) : AjvFormatValue :=
  match f.type with
  | some t => if t == "" then .validator f.validate else .typedValidator t f.validate
  | none => .validator f.validate

/-- JS record assignment on the embedded association list: replace the
value under an existing key, otherwise append the pair. -/
def setEntry (l : List (String × AjvFormatValue)) (k : String)
    (v : AjvFormatValue) : List (String × AjvFormatValue) :=
  if l.any (fun p => p.1 == k) then
    l.map (fun p => if p.1 == k then (k, v) else p)
  else l ++ [(k, v)]

/-- The formats array to record conversion of normalizeOptions. -/
def normalizeFormats : FormatsInput → FormatsInput
  | .arr fs => .record (fs.foldl (fun acc f => setEntry acc f.name (formatValue f)) [])
  | .record l => .record l

/-- The serDes defaulting loop of normalizeOptions: for every built-in
entry, search the current list for an entry with the same format; when
none is found the built-in entry is pushed at the end, and the search
for the next built-in runs over the list as already extended. -/
def addDefaultSerDes (builtins user : List SerDes) : List SerDes :=
  builtins.foldl
    (fun acc b =>
      match acc.find? (fun e => e.format == b.format) with
      | some _ => acc
      | none => acc ++ [b])
    user

/-- The serDes branch of normalizeOptions: a nullish serDes option is
replaced by the built-in table as-is, and otherwise the user list is
extended with the built-in entries whose format it does not already
carry. -/
def normalizeSerDes : Option (List SerDes) → List SerDes
  | none => defaultSerDes
  | some u => addDefaultSerDes defaultSerDes u

/-- Assignment of true under a format name into the formats option,
used by the unknownFormats compatibility loop. -/
def setFormatTrue (fi : FormatsInput) (k : String) : FormatsInput :=
  match fi with
  | .record l => .record (setEntry l k (.boolean true))
  | .arr l => .arr l

/-- The normalizeOptions method: formats array conversion, serDes
defaulting, validateFormats and ajvFormats normalization, and the
deprecated unknownFormats handling. -/
def normalizeOptions (options : OpenApiValidatorOpts) : OpenApiValidatorOpts :=
  let options := { options with formats := options.formats.map normalizeFormats }
  let options := { options with serDes := some (normalizeSerDes options.serDes) }
  let options :=
    match options.validateFormats with
    | some (.str s) =>
      { options with
        ajvFormats :=
          if options.ajvFormats.isNone then some (.mode s) else options.ajvFormats
        validateFormats := some (.bool true) }
    | some (.bool true) =>
      if options.ajvFormats.isNone then
        { options with ajvFormats := some (.mode "fast") }
      else options
    | _ => options
  match options.unknownFormats with
  | some (.list l) =>
    { options with formats := options.formats.map (fun fi => l.foldl setFormatTrue fi) }
  | some (.str s) =>
    if s == "ignore" then { options with validateFormats := some (.bool false) }
    else options
  | _ => options

/-- The OpenApiValidator constructor: apply the defaults and
conversions, run validateOptions, which can throw, and on success
normalize the options; a thrown configuration error is the error
case. -/
def OpenApiValidator.new (options : OpenApiValidatorOpts) :
    Except String OpenApiValidatorOpts :=
  let o := applyConstructorDefaults options
  match validateOptions o with
  | .error e => .error e
  | .ok _ => .ok (normalizeOptions o)

/-! ## Claims about the constructor and option normalization -/

/-- Projecting the normalized options at validateResponses gives back
the input field: no branch of normalizeOptions assigns it. -/
theorem normalizeOptions_validateResponses (o : OpenApiValidatorOpts) :
    (normalizeOptions o).validateResponses = o.validateResponses := by
  unfold normalizeOptions
  dsimp only
  repeat' split
  all_goals rfl

/-- Projecting the normalized options at serDes gives the normalized
serDes list: the later branches of normalizeOptions do not assign it. -/
theorem normalizeOptions_serDes (o : OpenApiValidatorOpts) :
    (normalizeOptions o).serDes = some (normalizeSerDes o.serDes) := by
  unfold normalizeOptions
  dsimp only
  repeat' split
  all_goals rfl

/-- C6: constructing a validator whose apiSpec option is falsy fails at
construction time with the apiSpec-required error; the constructor
returns no validator object, so no middleware can be installed and no
request processed. -/
theorem missing_apiSpec_throws (options : OpenApiValidatorOpts)
    (h : apiSpecTruthy options.apiSpec = false) :
    OpenApiValidator.new options = .error "apiSpec required." := by
  have hpre : apiSpecTruthy (applyConstructorDefaults options).apiSpec = false := h
  have hval : validateOptions (applyConstructorDefaults options)
      = .error "apiSpec required." := by
    unfold validateOptions
    rw [hpre]
    rfl
  show (match validateOptions (applyConstructorDefaults options) with
    | Except.error e => (Except.error e : Except String OpenApiValidatorOpts)
    | Except.ok _ => Except.ok (normalizeOptions (applyConstructorDefaults options)))
      = Except.error "apiSpec required."
  rw [hval]

/-- Witness for C6 at the empty options object. -/
theorem missing_apiSpec_throws_witness :
    apiSpecTruthy ({} : OpenApiValidatorOpts).apiSpec = false ∧
    OpenApiValidator.new {} = .error "apiSpec required." :=
  ⟨rfl, missing_apiSpec_throws {} rfl⟩

/-- C7: when the constructor receives validateResponses as the literal
boolean true, the normalized options hold the object whose onError is
null and whose removeAdditional and coerceTypes are false, so the
default response-validation policy raises the error rather than
invoking a callback. -/
theorem validateResponses_true_normalized (options : OpenApiValidatorOpts)
    (h1 : options.validateResponses = some (.bool true))
    (n : OpenApiValidatorOpts)
    (h2 : OpenApiValidator.new options = .ok n) :
    n.validateResponses = some (.opts
      { removeAdditional := some (.bool false)
        coerceTypes := some (.bool false)
        onError := none }) := by
  have hA : (applyConstructorDefaults options).validateResponses
      = some (.opts
        { removeAdditional := some (.bool false)
          coerceTypes := some (.bool false)
          onError := none }) := by
    unfold applyConstructorDefaults
    dsimp only
    rw [h1]
    rfl
  have h2a : (match validateOptions (applyConstructorDefaults options) with
    | Except.error e => (Except.error e : Except String OpenApiValidatorOpts)
    | Except.ok _ => Except.ok (normalizeOptions (applyConstructorDefaults options)))
      = Except.ok n := h2
  rcases hv : validateOptions (applyConstructorDefaults options) with e | u
  · rw [hv] at h2a
    exact Except.noConfusion h2a
  · rw [hv] at h2a
    have h3 : Except.ok (normalizeOptions (applyConstructorDefaults options))
        = Except.ok n := h2a
    injection h3 with h4
    rw [← h4, normalizeOptions_validateResponses]
    exact hA

/-- Witness for C7 at a concrete options object with a document apiSpec
and validateResponses true. -/
theorem validateResponses_true_normalized_witness :
    ∃ n : OpenApiValidatorOpts,
      OpenApiValidator.new
        { apiSpec := some .doc, validateResponses := some (.bool true) } = .ok n ∧
      n.validateResponses = some (.opts
        { removeAdditional := some (.bool false)
          coerceTypes := some (.bool false)
          onError := none }) :=
  ⟨_, rfl, validateResponses_true_normalized
    { apiSpec := some .doc, validateResponses := some (.bool true) } rfl _ rfl⟩

/-- Decomposition of the serDes defaulting loop: the result is the user
list followed by exactly the built-in entries whose format the user list
does not carry, and every built-in format is represented in the
result. -/
theorem addDefaultSerDes_decomposition (builtins : List SerDes) :
    ∀ user : List SerDes,
    ∃ extra, addDefaultSerDes builtins user = user ++ extra ∧
      (∀ b ∈ extra, b ∈ builtins ∧ ∀ e ∈ user, ¬ e.format = b.format) ∧
      (∀ b ∈ builtins, ∃ e ∈ addDefaultSerDes builtins user, e.format = b.format) := by
  induction builtins with
  | nil =>
    intro user
    exact ⟨[], by simp [addDefaultSerDes], by simp, by simp⟩
  | cons b rest ih =>
    intro user
    have hstep : addDefaultSerDes (b :: rest) user
        = addDefaultSerDes rest
            (match user.find? (fun e => e.format == b.format) with
              | some _ => user
              | none => user ++ [b]) := rfl
    cases hf : user.find? (fun e => e.format == b.format) with
    | some e =>
      obtain ⟨extra, heq, hextra, hcov⟩ := ih user
      have hres : addDefaultSerDes (b :: rest) user = user ++ extra := by
        rw [hstep, hf]
        exact heq
      refine ⟨extra, hres, ?_, ?_⟩
      · intro x hx
        obtain ⟨hx1, hx2⟩ := hextra x hx
        exact ⟨List.mem_cons_of_mem b hx1, hx2⟩
      · intro x hx
        rcases List.mem_cons.mp hx with hxb | hxr
        · have hmem : e ∈ user := List.mem_of_find?_eq_some hf
          have hp := List.find?_some hf
          have hfmt : e.format = b.format := by simpa using hp
          refine ⟨e, ?_, by rw [hfmt, hxb]⟩
          rw [hres]
          exact List.mem_append_left extra hmem
        · obtain ⟨y, hy, hyf⟩ := hcov x hxr
          refine ⟨y, ?_, hyf⟩
          rw [hres, ← heq]
          exact hy
    | none =>
      obtain ⟨extra, heq, hextra, hcov⟩ := ih (user ++ [b])
      have hres : addDefaultSerDes (b :: rest) user = user ++ (b :: extra) := by
        rw [hstep, hf]
        show addDefaultSerDes rest (user ++ [b]) = user ++ (b :: extra)
        rw [heq, List.append_assoc]
        rfl
      have hnone : ∀ e ∈ user, ¬ e.format = b.format := by
        intro e he hcontra
        have hne := List.find?_eq_none.mp hf e he
        simp [hcontra] at hne
      refine ⟨b :: extra, hres, ?_, ?_⟩
      · intro x hx
        rcases List.mem_cons.mp hx with hxb | hxe
        · refine ⟨?_, ?_⟩
          · rw [hxb]
            exact List.mem_cons_self b rest
          · intro e he hcontra
            rw [hxb] at hcontra
            exact hnone e he hcontra
        · obtain ⟨hx1, hx2⟩ := hextra x hxe
          refine ⟨List.mem_cons_of_mem b hx1, ?_⟩
          intro e he
          exact hx2 e (List.mem_append_left [b] he)
      · intro x hx
        rcases List.mem_cons.mp hx with hxb | hxr
        · refine ⟨b, ?_, by rw [hxb]⟩
          rw [hres]
          exact List.mem_append_right user (List.mem_cons_self b extra)
        · obtain ⟨y, hy, hyf⟩ := hcov x hxr
          refine ⟨y, ?_, hyf⟩
          rw [hres]
          rw [heq] at hy
          simpa using hy

/-- C4: the normalized options carry a serDes list in which every
built-in format, date and date-time among them, is represented; a
nullish serDes option is replaced by the built-in table as-is; and the
user list survives as an unchanged prefix while only built-in entries
whose format the user list does not carry are appended, so a user entry
overriding a built-in format is kept and that built-in entry is not
added. -/
theorem serDes_normalization (u : List SerDes) :
    (∀ o : OpenApiValidatorOpts,
      (normalizeOptions o).serDes = some (normalizeSerDes o.serDes)) ∧
    normalizeSerDes none = defaultSerDes ∧
    (∀ b ∈ defaultSerDes, ∃ e ∈ normalizeSerDes (some u), e.format = b.format) ∧
    (∃ extra, normalizeSerDes (some u) = u ++ extra ∧
      ∀ b ∈ extra, b ∈ defaultSerDes ∧ ∀ e ∈ u, ¬ e.format = b.format) := by
  obtain ⟨extra, heq, hextra, hcov⟩ := addDefaultSerDes_decomposition defaultSerDes u
  refine ⟨normalizeOptions_serDes, rfl, ?_, ⟨extra, heq, hextra⟩⟩
  intro b hb
  exact hcov b hb

/-- Witness for C4: a user list overriding the date format still yields
a date-time entry, and the normalized list keeps the user entry as its
head with only the date-time built-in appended. -/
theorem serDes_normalization_witness :
    ((defaultSerDes.get ⟨1, by decide⟩) ∈ defaultSerDes ∧
      normalizeSerDes (some [{ format := "date", serialize := some { id := 9 } }])
        = [{ format := "date", serialize := some { id := 9 } },
            { format := "date-time", serialize := some { id := 3 },
              deserialize := some { id := 4 } }]) ∧
    ∃ e ∈ normalizeSerDes (some [{ format := "date", serialize := some { id := 9 } }]),
      e.format = (defaultSerDes.get ⟨1, by decide⟩).format :=
  ⟨⟨by decide, by decide⟩,
    (serDes_normalization [{ format := "date", serialize := some { id := 9 } }]).2.2.1
      (defaultSerDes.get ⟨1, by decide⟩) (by decide)⟩

/-! ## Middleware installation model -/

/-- The error a failed spec load rejects with; its contents are opaque. -/
structure LoadError where
  msg : String
deriving DecidableEq, Repr

/-- The securitySchemes entry of the document components; when present
it is a truthy object, so only the scheme names are kept. -/
structure SecuritySchemes where
  schemes : List String := []
deriving DecidableEq, Repr

/-- The components object of the loaded document. -/
structure Components where
  securitySchemes : Option SecuritySchemes := none
deriving DecidableEq, Repr

/-- The loaded document, reduced to the parts the middleware chain
inspects. -/
structure ApiDoc where
  components : Option Components := none
deriving DecidableEq, Repr

/-- Route metadata of the context; only the path parameters matter to
installPathParams. -/
structure RouteMeta where
  pathParams : List String := []
deriving DecidableEq, Repr

/-- The value the spec-load promise resolves with. -/
structure Spec where
  apiDoc : ApiDoc := {}
  routes : List RouteMeta := []
deriving DecidableEq, Repr

/-- Modelled from the spec: the OpenApiContext the then-callback builds
from the loaded spec; the context class is not among the provided
sources, and the middleware code only reads its document and routes. -/
structure OpenApiContext where
  apiDoc : ApiDoc
  routes : List RouteMeta
deriving DecidableEq, Repr

/-- The settled value of the pContext promise of installMiddleware. -/
structure MiddlewareContext where
  context : Option OpenApiContext
  responseApiDoc : Option ApiDoc
  error : Option LoadError
deriving DecidableEq, Repr

/-- The then and catch chain of installMiddleware that produces
pContext: a successful load yields a context, a response document (the
preprocessor output, whose contents no claim here inspects) and a null
error; a failed load is caught and stored as the error with a null
context. The promise settles exactly once, so this single value serves
every waiting and every later request, and the load is never re-run. -/
def mkMiddlewareContext : Except LoadError Spec → MiddlewareContext
  | .ok spec =>
    { context := some { apiDoc := spec.apiDoc, routes := spec.routes }
      responseApiDoc := some spec.apiDoc
      error := none }
  | .error e => { context := none, responseApiDoc := none, error := some e }

/-- A JS error value handed to the next continuation: the stored load
error rethrown by the first middleware, or the TypeError raised when a
middleware destructures the null context of a failed load. -/
inductive JsError
  | loadErr (e : LoadError)
  | typeError
deriving DecidableEq, Repr

/-- What one middleware does with a request: call next plainly, or call
next with an error, which makes express skip the remaining plain
middlewares of the chain. -/
inductive MwOutcome
  | next
  | nextErr (e : JsError)
deriving DecidableEq, Repr

/-- The mutable state the installed closures share: the inited guard of
the path-params middleware, the built-once flags of the cached
sub-middlewares and of the operation-handlers router, and ghost counters
for the number of installPathParams invocations on the application and
on the operation-handlers router. -/
structure MwState where
  inited : Bool := false
  appInstalls : Nat := 0
  routerInstalls : Nat := 0
  metamwBuilt : Bool := false
  scmwBuilt : Bool := false
  fumwBuilt : Bool := false
  reqmwBuilt : Bool := false
  resmwBuilt : Bool := false
  routerBuilt : Bool := false
deriving DecidableEq, Repr

/-- Total number of installPathParams invocations recorded so far. -/
def MwState.installCount (s : MwState) : Nat :=
  s.appInstalls + s.routerInstalls

/-- Behavior of the sub-middlewares built from the external middleware
modules once they are invoked; the claims settled here never depend on
which outcome such a sub-middleware produces. -/
structure Env where
  metadataOutcome : MwOutcome := .next
  securityOutcome : MwOutcome := .next
  multipartOutcome : MwOutcome := .next
  requestOutcome : MwOutcome := .next
  responseOutcome : MwOutcome := .next
  opHandlerOutcome : MwOutcome := .next
deriving DecidableEq, Repr

/-- The pathParamsMiddleware body: rethrow a stored load error into the
catch, which forwards it to next; otherwise, on the first request, call
installPathParams on the application and set the inited guard, then call
next. The ghost counter records the invocation. -/
def pathParamsMiddleware (pCtx : MiddlewareContext) (s : MwState) :
    MwOutcome × MwState :=
  match pCtx.error with
  | some e => (.nextErr (.loadErr e), s)
  | none =>
    if s.inited then (.next, s)
    else (.next, { s with inited := true, appInstalls := s.appInstalls + 1 })

/-- The metadataMiddleware body: build the cached metadata middleware on
first use and run it; it does not consult the stored error. -/
def metadataMiddleware (env : Env) (_pCtx : MiddlewareContext) (s : MwState) :
    MwOutcome × MwState :=
  (env.metadataOutcome, { s with metamwBuilt := true })

/-- JS truthiness of the normalized validateSecurity option: false is
falsy, any options object, even empty, is truthy. -/
def validateSecurityTruthy : Option ValidateSecurityInput → Bool
  | some (.bool b) => b
  | some (.opts _) => true
  | none => false

/-- The securityMiddleware body: destructuring the document out of a
null context raises a TypeError; otherwise, only when the
validateSecurity option is truthy and the document components carry a
securitySchemes entry is the cached security middleware built and run;
in every other case next is called directly. -/
def securityMiddleware (env : Env) (opts : OpenApiValidatorOpts)
    (pCtx : MiddlewareContext) (s : MwState) : MwOutcome × MwState :=
  match pCtx.context with
  | none => (.nextErr .typeError, s)
  | some ctx =>
    if validateSecurityTruthy opts.validateSecurity
        && (ctx.apiDoc.components.bind (fun c => c.securitySchemes)).isSome then
      (env.securityOutcome, { s with scmwBuilt := true })
    else (.next, s)

/-- The multipartMiddleware body: destructure the context document, then
build the cached multipart middleware on first use and run it. -/
def multipartMiddleware (env : Env) (pCtx : MiddlewareContext) (s : MwState) :
    MwOutcome × MwState :=
  match pCtx.context with
  | none => (.nextErr .typeError, s)
  | some _ => (env.multipartOutcome, { s with fumwBuilt := true })

/-- The requestMiddleware body: destructure the context document, then
build the cached request validator on first use and run it. -/
def requestMiddleware (env : Env) (pCtx : MiddlewareContext) (s : MwState) :
    MwOutcome × MwState :=
  match pCtx.context with
  | none => (.nextErr .typeError, s)
  | some _ => (env.requestOutcome, { s with reqmwBuilt := true })

/-- The responseMiddleware body: destructure the serial out of the
context, then build the cached response validator on first use and run
it. -/
def responseMiddleware (env : Env) (pCtx : MiddlewareContext) (s : MwState) :
    MwOutcome × MwState :=
  match pCtx.context with
  | none => (.nextErr .typeError, s)
  | some _ => (env.responseOutcome, { s with resmwBuilt := true })

/-- The operationHandlersMiddleware body: once the router is built it
handles the request; on first use installOperationHandlers builds the
router, which invokes installPathParams on that router (recorded by the
ghost counter) before installing the resolved handlers; a null context
raises a TypeError inside that call. -/
def operationHandlersMiddleware (env : Env) (pCtx : MiddlewareContext)
    (s : MwState) : MwOutcome × MwState :=
  if s.routerBuilt then (env.opHandlerOutcome, s)
  else
    match pCtx.context with
    | none => (.nextErr .typeError, s)
    | some _ =>
      (env.opHandlerOutcome,
        { s with routerBuilt := true, routerInstalls := s.routerInstalls + 1 })

/-- JS truthiness of the normalized fileUploader option. -/
def fileUploaderTruthy : Option FileUploaderInput → Bool
  | some (.bool b) => b
  | some (.opts _) => true
  | none => false

/-- JS truthiness of the normalized validateRequests option. -/
def validateRequestsTruthy : Option ValidateRequestsInput → Bool
  | some (.bool b) => b
  | some (.opts _) => true
  | none => false

/-- JS truthiness of the normalized validateResponses option. -/
def validateResponsesTruthy : Option ValidateResponsesInput → Bool
  | some (.bool b) => b
  | some (.opts _) => true
  | none => false

/-- JS truthiness of the normalized operationHandlers option. -/
def operationHandlersTruthy : Option OperationHandlersInput → Bool
  | some (.bool b) => b
  | some (.str s) => !(s == "")
  | some (.obj _) => true
  | none => false

/-- The middlewares installMiddleware pushes after the path-params one:
metadata and security always, then multipart, request validation,
response validation and operation handlers, each guarded by the same if
statements as the source. -/
def tailMiddlewares (env : Env) (opts : OpenApiValidatorOpts)
    (pCtx : MiddlewareContext) : List (MwState → MwOutcome × MwState) :=
  [metadataMiddleware env pCtx, securityMiddleware env opts pCtx]
  ++ (if fileUploaderTruthy opts.fileUploader then [multipartMiddleware env pCtx]
      else [])
  ++ (if validateRequestsTruthy opts.validateRequests then [requestMiddleware env pCtx]
      else [])
  ++ (if validateResponsesTruthy opts.validateResponses then [responseMiddleware env pCtx]
      else [])
  ++ (if operationHandlersTruthy opts.operationHandlers then [operationHandlersMiddleware env pCtx]
      else [])

/-- The full middleware chain returned by installMiddleware, in push
order; every member closes over the one pContext value. -/
def middlewareChain (env : Env) (opts : OpenApiValidatorOpts)
    (pCtx : MiddlewareContext) : List (MwState → MwOutcome × MwState) :=
  pathParamsMiddleware pCtx :: tailMiddlewares env opts pCtx

/-- The host framework dispatch over one request: run the middlewares in
order; a middleware that forwards an error ends the chain with that
error, since express skips the remaining plain middlewares. -/
def runChain : List (MwState → MwOutcome × MwState) → MwState →
    MwOutcome × MwState
  | [], s => (.next, s)
  | m :: rest, s =>
    match m s with
    | (.next, s2) => runChain rest s2
    | (.nextErr e, s2) => (.nextErr e, s2)

/-- Outcomes and final shared state of a sequence of requests processed
one after the other by the chain. -/
def runRequests (chain : List (MwState → MwOutcome × MwState)) :
    Nat → MwState → List MwOutcome × MwState
  | 0, s => ([], s)
  | n + 1, s =>
    let r := runChain chain s
    let rs := runRequests chain n r.2
    (r.1 :: rs.1, rs.2)

/-! ## Claims about the middleware chain -/

/-- C2: when the spec load fails with an error, every request processed
by the installed chain, whatever its position in the sequence, ends with
that same load error forwarded to next; the chain closes over the one
settled pContext value, so the load is never retried. -/
theorem load_failure_fails_every_request (env : Env)
    (opts : OpenApiValidatorOpts) (e : LoadError) (n : Nat) (s : MwState)
    (o : MwOutcome)
    (ho : o ∈ (runRequests (middlewareChain env opts
      (mkMiddlewareContext (.error e))) n s).1) :
    o = .nextErr (.loadErr e) := by
  have hrc : ∀ st : MwState, runChain (middlewareChain env opts
      (mkMiddlewareContext (.error e))) st = (.nextErr (.loadErr e), st) :=
    fun st => rfl
  induction n generalizing s with
  | zero => simp [runRequests] at ho
  | succ k ih =>
    simp only [runRequests] at ho
    rw [hrc s] at ho
    simp only [List.mem_cons] at ho
    rcases ho with h | h
    · exact h
    · exact ih s h

/-- Witness for C2: with a failed load, the first of two requests ends
with the load error. -/
theorem load_failure_fails_every_request_witness :
    ((runChain (middlewareChain {} {}
        (mkMiddlewareContext (.error { msg := "load failed" }))) {}).1
      ∈ (runRequests (middlewareChain {} {}
        (mkMiddlewareContext (.error { msg := "load failed" }))) 2 {}).1) ∧
    (runChain (middlewareChain {} {}
        (mkMiddlewareContext (.error { msg := "load failed" }))) {}).1
      = .nextErr (.loadErr { msg := "load failed" }) :=
  ⟨by decide,
    load_failure_fails_every_request {} {} { msg := "load failed" } 2 {} _ (by decide)⟩

/-- C10: with security validation enabled but no securitySchemes entry
under the loaded document components, and also when components is
absent, the security middleware calls next directly, leaving the state
unchanged, so the cached security evaluator is never built; the result
does not depend on the environment, so no security handler runs. -/
theorem no_security_schemes_passes_through (env : Env)
    (opts : OpenApiValidatorOpts) (spec : Spec) (s : MwState)
    (hvs : validateSecurityTruthy opts.validateSecurity = true)
    (hss : spec.apiDoc.components.bind (fun c => c.securitySchemes) = none) :
    securityMiddleware env opts (mkMiddlewareContext (.ok spec)) s = (.next, s) := by
  show (if validateSecurityTruthy opts.validateSecurity
      && (spec.apiDoc.components.bind (fun c => c.securitySchemes)).isSome then
      (env.securityOutcome, { s with scmwBuilt := true })
    else ((.next, s) : MwOutcome × MwState)) = (.next, s)
  rw [hss, hvs]
  rfl

/-- Witness for C10: an enabled validateSecurity option with a document
that has no components at all passes straight through. -/
theorem no_security_schemes_passes_through_witness :
    (validateSecurityTruthy
        ({ validateSecurity := some (.opts {}) } :
          OpenApiValidatorOpts).validateSecurity = true ∧
      ({} : Spec).apiDoc.components.bind (fun c => c.securitySchemes) = none) ∧
    securityMiddleware {} { validateSecurity := some (.opts {}) }
      (mkMiddlewareContext (.ok {})) {} = (.next, {}) :=
  ⟨⟨rfl, rfl⟩,
    no_security_schemes_passes_through {}
      { validateSecurity := some (.opts {}) } {} {} rfl rfl⟩

/-- App-side guard invariant: the application install counter matches
the inited guard. -/
def AInv (s : MwState) : Prop :=
  s.appInstalls = (if s.inited then 1 else 0)

/-- Router-side guard invariant: the router install counter matches the
router-built guard. -/
def RInv (s : MwState) : Prop :=
  s.routerInstalls = (if s.routerBuilt then 1 else 0)

/-- A middleware that never touches the inited guard or the application
install counter, and increments the router counter only while setting
the router guard from false to true. -/
def GuardSafe (m : MwState → MwOutcome × MwState) : Prop :=
  ∀ s, ((m s).2.inited = s.inited) ∧ ((m s).2.appInstalls = s.appInstalls) ∧
    (((m s).2.routerBuilt = s.routerBuilt ∧
        (m s).2.routerInstalls = s.routerInstalls) ∨
      (s.routerBuilt = false ∧ (m s).2.routerBuilt = true ∧
        (m s).2.routerInstalls = s.routerInstalls + 1))

/-- A middleware that never touches the router install counter. -/
def PreservesRouterCount (m : MwState → MwOutcome × MwState) : Prop :=
  ∀ s, (m s).2.routerInstalls = s.routerInstalls

theorem metadataMiddleware_guardSafe (env : Env) (pCtx : MiddlewareContext) :
    GuardSafe (metadataMiddleware env pCtx) :=
  fun _ => ⟨rfl, rfl, Or.inl ⟨rfl, rfl⟩⟩

theorem securityMiddleware_guardSafe (env : Env) (opts : OpenApiValidatorOpts)
    (pCtx : MiddlewareContext) : GuardSafe (securityMiddleware env opts pCtx) := by
  intro s
  unfold securityMiddleware
  rcases pCtx.context with _ | ctx
  · exact ⟨rfl, rfl, Or.inl ⟨rfl, rfl⟩⟩
  · dsimp only
    split
    · exact ⟨rfl, rfl, Or.inl ⟨rfl, rfl⟩⟩
    · exact ⟨rfl, rfl, Or.inl ⟨rfl, rfl⟩⟩

theorem multipartMiddleware_guardSafe (env : Env) (pCtx : MiddlewareContext) :
    GuardSafe (multipartMiddleware env pCtx) := by
  intro s
  unfold multipartMiddleware
  rcases pCtx.context with _ | ctx
  · exact ⟨rfl, rfl, Or.inl ⟨rfl, rfl⟩⟩
  · exact ⟨rfl, rfl, Or.inl ⟨rfl, rfl⟩⟩

theorem requestMiddleware_guardSafe (env : Env) (pCtx : MiddlewareContext) :
    GuardSafe (requestMiddleware env pCtx) := by
  intro s
  unfold requestMiddleware
  rcases pCtx.context with _ | ctx
  · exact ⟨rfl, rfl, Or.inl ⟨rfl, rfl⟩⟩
  · exact ⟨rfl, rfl, Or.inl ⟨rfl, rfl⟩⟩

theorem responseMiddleware_guardSafe (env : Env) (pCtx : MiddlewareContext) :
    GuardSafe (responseMiddleware env pCtx) := by
  intro s
  unfold responseMiddleware
  rcases pCtx.context with _ | ctx
  · exact ⟨rfl, rfl, Or.inl ⟨rfl, rfl⟩⟩
  · exact ⟨rfl, rfl, Or.inl ⟨rfl, rfl⟩⟩

theorem operationHandlersMiddleware_guardSafe (env : Env)
    (pCtx : MiddlewareContext) : GuardSafe (operationHandlersMiddleware env pCtx) := by
  intro s
  unfold operationHandlersMiddleware
  by_cases hrb : s.routerBuilt = true
  · rw [if_pos hrb]
    exact ⟨rfl, rfl, Or.inl ⟨rfl, rfl⟩⟩
  · rw [if_neg hrb]
    have hrb2 : s.routerBuilt = false := by simpa using hrb
    rcases pCtx.context with _ | ctx
    · exact ⟨rfl, rfl, Or.inl ⟨rfl, rfl⟩⟩
    · exact ⟨rfl, rfl, Or.inr ⟨hrb2, rfl, rfl⟩⟩

/-- Helper: membership in a conditional singleton forces the element. -/
theorem mem_ite_singleton {α : Type} {m x : α} {c : Prop} [Decidable c]
    (h : m ∈ (if c then [x] else [])) : m = x := by
  by_cases hc : c
  · rw [if_pos hc] at h
    exact List.mem_singleton.mp h
  · rw [if_neg hc] at h
    exact absurd h (List.not_mem_nil m)

theorem tail_guardSafe (env : Env) (opts : OpenApiValidatorOpts)
    (pCtx : MiddlewareContext) :
    ∀ m ∈ tailMiddlewares env opts pCtx, GuardSafe m := by
  intro m hm
  unfold tailMiddlewares at hm
  rcases List.mem_append.mp hm with hm | hm
  · rcases List.mem_append.mp hm with hm | hm
    · rcases List.mem_append.mp hm with hm | hm
      · rcases List.mem_append.mp hm with hm | hm
        · rcases List.mem_cons.mp hm with hm | hm
          · rw [hm]
            exact metadataMiddleware_guardSafe env pCtx
          · rw [List.mem_singleton.mp hm]
            exact securityMiddleware_guardSafe env opts pCtx
        · rw [mem_ite_singleton hm]
          exact multipartMiddleware_guardSafe env pCtx
      · rw [mem_ite_singleton hm]
        exact requestMiddleware_guardSafe env pCtx
    · rw [mem_ite_singleton hm]
      exact responseMiddleware_guardSafe env pCtx
  · rw [mem_ite_singleton hm]
    exact operationHandlersMiddleware_guardSafe env pCtx

theorem metadataMiddleware_preservesRouter (env : Env) (pCtx : MiddlewareContext) :
    PreservesRouterCount (metadataMiddleware env pCtx) :=
  fun _ => rfl

theorem securityMiddleware_preservesRouter (env : Env)
    (opts : OpenApiValidatorOpts) (pCtx : MiddlewareContext) :
    PreservesRouterCount (securityMiddleware env opts pCtx) := by
  intro s
  unfold securityMiddleware
  rcases pCtx.context with _ | ctx
  · rfl
  · dsimp only
    split
    · rfl
    · rfl

theorem multipartMiddleware_preservesRouter (env : Env) (pCtx : MiddlewareContext) :
    PreservesRouterCount (multipartMiddleware env pCtx) := by
  intro s
  unfold multipartMiddleware
  rcases pCtx.context with _ | ctx
  · rfl
  · rfl

theorem requestMiddleware_preservesRouter (env : Env) (pCtx : MiddlewareContext) :
    PreservesRouterCount (requestMiddleware env pCtx) := by
  intro s
  unfold requestMiddleware
  rcases pCtx.context with _ | ctx
  · rfl
  · rfl

theorem responseMiddleware_preservesRouter (env : Env) (pCtx : MiddlewareContext) :
    PreservesRouterCount (responseMiddleware env pCtx) := by
  intro s
  unfold responseMiddleware
  rcases pCtx.context with _ | ctx
  · rfl
  · rfl

theorem pathParamsMiddleware_preservesRouter (pCtx : MiddlewareContext) :
    PreservesRouterCount (pathParamsMiddleware pCtx) := by
  intro s
  unfold pathParamsMiddleware
  rcases pCtx.error with _ | e
  · dsimp only
    split
    · rfl
    · rfl
  · rfl

theorem tail_preservesRouter (env : Env) (opts : OpenApiValidatorOpts)
    (pCtx : MiddlewareContext)
    (hop : operationHandlersTruthy opts.operationHandlers = false) :
    ∀ m ∈ tailMiddlewares env opts pCtx, PreservesRouterCount m := by
  intro m hm
  unfold tailMiddlewares at hm
  rcases List.mem_append.mp hm with hm | hm
  · rcases List.mem_append.mp hm with hm | hm
    · rcases List.mem_append.mp hm with hm | hm
      · rcases List.mem_append.mp hm with hm | hm
        · rcases List.mem_cons.mp hm with hm | hm
          · rw [hm]
            exact metadataMiddleware_preservesRouter env pCtx
          · rw [List.mem_singleton.mp hm]
            exact securityMiddleware_preservesRouter env opts pCtx
        · rw [mem_ite_singleton hm]
          exact multipartMiddleware_preservesRouter env pCtx
      · rw [mem_ite_singleton hm]
        exact requestMiddleware_preservesRouter env pCtx
    · rw [mem_ite_singleton hm]
      exact responseMiddleware_preservesRouter env pCtx
  · rw [hop] at hm
    simp at hm

theorem runChain_guardSafe (tail : List (MwState → MwOutcome × MwState)) :
    (∀ m ∈ tail, GuardSafe m) → ∀ s : MwState,
    ((runChain tail s).2.inited = s.inited) ∧
    ((runChain tail s).2.appInstalls = s.appInstalls) ∧
    (RInv s → RInv (runChain tail s).2) := by
  induction tail with
  | nil =>
    intro _ s
    exact ⟨rfl, rfl, fun hr => hr⟩
  | cons m rest ih =>
    intro h s
    have hrest : ∀ m2 ∈ rest, GuardSafe m2 :=
      fun m2 hm2 => h m2 (List.mem_cons_of_mem m hm2)
    obtain ⟨h1, h2, h3⟩ := h m (List.mem_cons_self m rest) s
    rcases hms : m s with ⟨o, s2⟩
    rw [hms] at h1 h2 h3
    have hRs2 : RInv s → RInv s2 := by
      intro hr
      unfold RInv at hr ⊢
      rcases h3 with ⟨ha, hb⟩ | ⟨ha, hb, hc⟩
      · rw [hb, ha]
        exact hr
      · rw [hc, hb, hr, ha]
        rfl
    cases o with
    | next =>
      have hrun : runChain (m :: rest) s = runChain rest s2 := by
        simp only [runChain, hms]
      obtain ⟨i1, i2, i3⟩ := ih hrest s2
      rw [hrun]
      exact ⟨i1.trans h1, i2.trans h2, fun hr => i3 (hRs2 hr)⟩
    | nextErr e =>
      have hrun : runChain (m :: rest) s = (.nextErr e, s2) := by
        simp only [runChain, hms]
      rw [hrun]
      exact ⟨h1, h2, hRs2⟩

theorem runChain_preservesRouter (chain : List (MwState → MwOutcome × MwState)) :
    (∀ m ∈ chain, PreservesRouterCount m) → ∀ s : MwState,
    (runChain chain s).2.routerInstalls = s.routerInstalls := by
  induction chain with
  | nil =>
    intro _ s
    rfl
  | cons m rest ih =>
    intro h s
    have hm := h m (List.mem_cons_self m rest) s
    have hrest : ∀ m2 ∈ rest, PreservesRouterCount m2 :=
      fun m2 hm2 => h m2 (List.mem_cons_of_mem m hm2)
    rcases hms : m s with ⟨o, s2⟩
    rw [hms] at hm
    cases o with
    | next =>
      have hrun : runChain (m :: rest) s = runChain rest s2 := by
        simp only [runChain, hms]
      rw [hrun]
      exact (ih hrest s2).trans hm
    | nextErr e =>
      have hrun : runChain (m :: rest) s = (.nextErr e, s2) := by
        simp only [runChain, hms]
      rw [hrun]
      exact hm

/-- The head middleware on a successful load: it always calls next, and
installs exactly when the guard was not yet set. -/
theorem pathParamsMiddleware_ok (spec : Spec) (s : MwState) :
    pathParamsMiddleware (mkMiddlewareContext (.ok spec)) s
      = (.next, if s.inited then s
          else { s with inited := true, appInstalls := s.appInstalls + 1 }) := by
  show (if s.inited then ((.next, s) : MwOutcome × MwState)
      else (.next, { s with inited := true, appInstalls := s.appInstalls + 1 }))
    = (.next, if s.inited then s
        else { s with inited := true, appInstalls := s.appInstalls + 1 })
  by_cases h : s.inited = true
  · rw [if_pos h, if_pos h]
  · rw [if_neg h, if_neg h]

/-- One request through the chain of a successful load: afterwards the
inited guard is set and both guard invariants are preserved. -/
theorem runChain_ok_step (env : Env) (opts : OpenApiValidatorOpts) (spec : Spec)
    (s : MwState) :
    ((runChain (middlewareChain env opts (mkMiddlewareContext (.ok spec))) s).2.inited
      = true) ∧
    (AInv s →
      AInv (runChain (middlewareChain env opts (mkMiddlewareContext (.ok spec))) s).2) ∧
    (RInv s →
      RInv (runChain (middlewareChain env opts (mkMiddlewareContext (.ok spec))) s).2) := by
  have htail := tail_guardSafe env opts (mkMiddlewareContext (.ok spec))
  by_cases hi : s.inited = true
  · have hhead : pathParamsMiddleware (mkMiddlewareContext (.ok spec)) s = (.next, s) := by
      rw [pathParamsMiddleware_ok, if_pos hi]
    have hrun : runChain (middlewareChain env opts (mkMiddlewareContext (.ok spec))) s
        = runChain (tailMiddlewares env opts (mkMiddlewareContext (.ok spec))) s := by
      show runChain (pathParamsMiddleware (mkMiddlewareContext (.ok spec))
        :: tailMiddlewares env opts (mkMiddlewareContext (.ok spec))) s = _
      simp only [runChain, hhead]
    obtain ⟨i1, i2, i3⟩ :=
      runChain_guardSafe (tailMiddlewares env opts (mkMiddlewareContext (.ok spec))) htail s
    rw [hrun]
    refine ⟨i1.trans hi, ?_, i3⟩
    intro hA
    unfold AInv at hA ⊢
    rw [i1, i2]
    exact hA
  · set s1 : MwState := { s with inited := true, appInstalls := s.appInstalls + 1 }
      with hs1
    have hhead : pathParamsMiddleware (mkMiddlewareContext (.ok spec)) s = (.next, s1) := by
      rw [pathParamsMiddleware_ok, if_neg hi]
    have hrun : runChain (middlewareChain env opts (mkMiddlewareContext (.ok spec))) s
        = runChain (tailMiddlewares env opts (mkMiddlewareContext (.ok spec))) s1 := by
      show runChain (pathParamsMiddleware (mkMiddlewareContext (.ok spec))
        :: tailMiddlewares env opts (mkMiddlewareContext (.ok spec))) s = _
      simp only [runChain, hhead]
    obtain ⟨i1, i2, i3⟩ :=
      runChain_guardSafe (tailMiddlewares env opts (mkMiddlewareContext (.ok spec))) htail s1
    rw [hrun]
    have hs1i : s1.inited = true := rfl
    refine ⟨i1.trans hs1i, ?_, ?_⟩
    · intro hA
      unfold AInv at hA ⊢
      rw [i1, i2, hs1i]
      show s.appInstalls + 1 = 1
      rw [hA, if_neg hi]
    · intro hR
      have hRs1 : RInv s1 := hR
      exact i3 hRs1

/-- State evolution over a sequence of requests on a successful load:
the guard invariants hold throughout and the inited guard is set from
the first request on. -/
theorem runRequests_ok_state (env : Env) (opts : OpenApiValidatorOpts)
    (spec : Spec) : ∀ (n : Nat) (s : MwState), AInv s → RInv s →
    AInv (runRequests (middlewareChain env opts
      (mkMiddlewareContext (.ok spec))) n s).2 ∧
    RInv (runRequests (middlewareChain env opts
      (mkMiddlewareContext (.ok spec))) n s).2 ∧
    ((1 ≤ n ∨ s.inited = true) →
      (runRequests (middlewareChain env opts
        (mkMiddlewareContext (.ok spec))) n s).2.inited = true) := by
  intro n
  induction n with
  | zero =>
    intro s hA hR
    refine ⟨hA, hR, ?_⟩
    rintro (h | h)
    · exact absurd h (by decide)
    · exact h
  | succ k ih =>
    intro s hA hR
    obtain ⟨hi1, hA1, hR1⟩ := runChain_ok_step env opts spec s
    obtain ⟨hAf, hRf, hIf⟩ := ih
      (runChain (middlewareChain env opts (mkMiddlewareContext (.ok spec))) s).2
      (hA1 hA) (hR1 hR)
    simp only [runRequests]
    exact ⟨hAf, hRf, fun _ => hIf (Or.inr hi1)⟩

/-- C5 counterexample: with operation handlers configured, a single
request through the chain of a successful load invokes installPathParams
twice, once on the application from the path-params middleware and once
on the fresh router from installOperationHandlers, so the invocation is
not at most once. -/
theorem install_path_params_twice_counterexample :
    MwState.installCount (runRequests (middlewareChain {}
      { operationHandlers := some (.obj { basePath := "/handlers" }) }
      (mkMiddlewareContext (.ok {}))) 1 {}).2 = 2 := by
  decide

/-- C5 amended: on a successful load, the path-params middleware invokes
installPathParams on the application at most once across any request
sequence, the first request triggering it and the inited guard blocking
every later one; the operation-handlers middleware, when configured,
performs one further guarded invocation on its own router; with
operation handlers not configured the total number of invocations is at
most one. -/
theorem install_path_params_guarded (env : Env) (opts : OpenApiValidatorOpts)
    (spec : Spec) (n : Nat) :
    ((runRequests (middlewareChain env opts
      (mkMiddlewareContext (.ok spec))) n {}).2.appInstalls ≤ 1) ∧
    ((runRequests (middlewareChain env opts
      (mkMiddlewareContext (.ok spec))) n {}).2.routerInstalls ≤ 1) ∧
    (operationHandlersTruthy opts.operationHandlers = false →
      MwState.installCount (runRequests (middlewareChain env opts
        (mkMiddlewareContext (.ok spec))) n {}).2 ≤ 1) ∧
    (1 ≤ n →
      (runRequests (middlewareChain env opts
        (mkMiddlewareContext (.ok spec))) n {}).2.appInstalls = 1) := by
  obtain ⟨hA, hR, hI⟩ := runRequests_ok_state env opts spec n {} rfl rfl
  set sf := (runRequests (middlewareChain env opts
    (mkMiddlewareContext (.ok spec))) n {}).2 with hsf
  have hA1 : sf.appInstalls ≤ 1 := by
    unfold AInv at hA
    rw [hA]
    by_cases h : sf.inited = true
    · rw [if_pos h]
    · rw [if_neg h]
      exact Nat.zero_le 1
  have hR1 : sf.routerInstalls ≤ 1 := by
    unfold RInv at hR
    rw [hR]
    by_cases h : sf.routerBuilt = true
    · rw [if_pos h]
    · rw [if_neg h]
      exact Nat.zero_le 1
  refine ⟨hA1, hR1, ?_, ?_⟩
  · intro hop
    have hchain : ∀ m ∈ middlewareChain env opts (mkMiddlewareContext (.ok spec)),
        PreservesRouterCount m := by
      intro m hm
      rcases List.mem_cons.mp hm with hm | hm
      · rw [hm]
        exact pathParamsMiddleware_preservesRouter _
      · exact tail_preservesRouter env opts _ hop m hm
    have hzero : ∀ (k : Nat) (s : MwState),
        (runRequests (middlewareChain env opts
          (mkMiddlewareContext (.ok spec))) k s).2.routerInstalls
          = s.routerInstalls := by
      intro k
      induction k with
      | zero => intro s; rfl
      | succ j ihj =>
        intro s
        simp only [runRequests]
        rw [ihj]
        exact runChain_preservesRouter _ hchain s
    have hz : sf.routerInstalls = 0 := by
      rw [hsf, hzero n {}]
    unfold MwState.installCount
    rw [hz]
    simpa using hA1
  · intro hn
    have hin : sf.inited = true := hI (Or.inl hn)
    unfold AInv at hA
    rw [hA, if_pos hin]

/-- Witness for the amended C5 at three requests with default options. -/
theorem install_path_params_guarded_witness :
    (operationHandlersTruthy ({} : OpenApiValidatorOpts).operationHandlers = false ∧
      1 ≤ 3) ∧
    (MwState.installCount (runRequests (middlewareChain {} {}
      (mkMiddlewareContext (.ok ({} : Spec)))) 3 {}).2 ≤ 1) ∧
    ((runRequests (middlewareChain {} {}
      (mkMiddlewareContext (.ok ({} : Spec)))) 3 {}).2.appInstalls = 1) :=
  ⟨⟨rfl, by decide⟩,
    (install_path_params_guarded {} {} {} 3).2.2.1 rfl,
    (install_path_params_guarded {} {} {} 3).2.2.2 (by decide)⟩

end EOV
